import Mathlib

/-!
Verification of the KE_MING_FRON chat client's streaming response assembler.

The repository's `src/App.tsx` concatenates two revisions of the `App`
component, each with its own `handleSubmit` implementation:

* variant 1 (file lines 192-329): after checking `line.startsWith('data: ')`
  it takes `line.slice(5)`, so the payload keeps a leading space; content
  lines are filtered by substring tests `data.includes('[SOURCES]')` and
  `data.includes('[ERROR]')`; the sources JSON parse sits inside its own
  try/catch.
* variant 2 (file lines 867-998): takes `line.slice(6)`; recognises
  `[SOURCES]...[/SOURCES]`, `[ERROR]...`, `[DONE]` frames; the sources JSON
  parse is NOT guarded, so a parse failure propagates to the outer catch;
  after the read loop the accumulated content and sources are always written
  into the final message list.

Both variants decode each chunk independently (`decoder.decode(value)`,
without `{stream: true}`) and split each chunk on `'\n'` with no carry-over
of a trailing partial line.

JavaScript strings are embedded as `List Char`; each already-decoded chunk
is a `List Char`.  Backend calls (axios / fetch) are external collaborators
per the specification; the models take their successful results as
parameters and the stream body as a list of decoded chunks.
-/

namespace KeMing

/-- Whitespace for the JavaScript `trim()` / blank-line test
(space, tab, line feed, carriage return, vertical tab, form feed). -/
def isWs (c : Char) : Bool :=
  c = ' ' || c = '\t' || c = '\n' || c = '\r' || c.toNat = 11 || c.toNat = 12

/-- JavaScript `String.prototype.trim`: drop whitespace from both ends. -/
def jsTrim (l : List Char) : List Char :=
  ((l.dropWhile isWs).reverse.dropWhile isWs).reverse

/-- JavaScript `s.slice(0, s.length - n)` used for stripping a suffix. -/
def dropRight (l : List Char) (n : Nat) : List Char :=
  l.take (l.length - n)

/-- JavaScript `String.prototype.split('\n')`. -/
def splitNl : List Char → List (List Char)
  | [] => [[]]
  | c :: cs =>
    if c = '\n' then [] :: splitNl cs
    else
      match splitNl cs with
      | h :: t => (c :: h) :: t
      | [] => [[c]]

/-- JavaScript `String.prototype.includes`: `pat` occurs as a contiguous
segment of `l`. -/
def containsSeg (pat : List Char) : List Char → Bool
  | [] => pat.isPrefixOf ([] : List Char)
  | c :: cs => pat.isPrefixOf (c :: cs) || containsSeg pat cs

/-- JavaScript `String.prototype.replace` with a plain-string pattern:
replace only the first occurrence of `pat` by `repl`. -/
def replaceFirst (pat repl : List Char) : List Char → List Char
  | [] => if pat.isPrefixOf ([] : List Char) then repl else []
  | c :: cs =>
    if pat.isPrefixOf (c :: cs) then repl ++ (c :: cs).drop pat.length
    else c :: replaceFirst pat repl cs

/-- The protocol's frame marker `"data: "`. -/
def dataMark : List Char := "data: ".toList

/-- The `"[SOURCES]"` opening marker. -/
def srcOpen : List Char := "[SOURCES]".toList

/-- The `"[/SOURCES]"` closing marker. -/
def srcClose : List Char := "[/SOURCES]".toList

/-- The `"[ERROR]"` opening marker. -/
def errOpen : List Char := "[ERROR]".toList

/-- The `"[/ERROR]"` closing marker. -/
def errClose : List Char := "[/ERROR]".toList

/-- The `"[DONE]"` terminal marker. -/
def doneTok : List Char := "[DONE]".toList

/-! ## JSON values

`JSON.parse` is a host builtin, not part of this repository.
Modelled from the spec: §4.1 "parse the inner text as a JSON-encoded
sequence of Source; on parse failure, discard silently".  The value grammar
below covers JSON objects, arrays, strings (with the standard escapes),
integer numbers, booleans and null; non-integer numerals are outside the
model (no claim exercises them). -/

/-- A parsed JSON value (numbers restricted to integers). -/
inductive Json where
  | null : Json
  | bool : Bool → Json
  | num : Int → Json
  | str : List Char → Json
  | arr : List Json → Json
  | obj : List (List Char × Json) → Json

/-- JSON insignificant whitespace. -/
def skipWs (l : List Char) : List Char :=
  l.dropWhile fun c => c = ' ' || c = '\t' || c = '\n' || c = '\r'

/-- Value of a hexadecimal digit. -/
def hexVal (c : Char) : Option Nat :=
  if '0' ≤ c ∧ c ≤ '9' then some (c.toNat - 48)
  else if 'a' ≤ c ∧ c ≤ 'f' then some (c.toNat - 87)
  else if 'A' ≤ c ∧ c ≤ 'F' then some (c.toNat - 55)
  else none

/-- Parse the remainder of a JSON string literal (after the opening quote),
returning its characters and the input after the closing quote. -/
def parseJStr : List Char → Option (List Char × List Char)
  | [] => none
  | c :: rest =>
    if c = '"' then some ([], rest)
    else if c = '\\' then
      match rest with
      | [] => none
      | e :: rest1 =>
        if e = 'u' then
          match rest1 with
          | h1 :: h2 :: h3 :: h4 :: rest2 =>
            match hexVal h1, hexVal h2, hexVal h3, hexVal h4 with
            | some a, some b, some c1, some d =>
              (parseJStr rest2).map fun p =>
                (Char.ofNat (((a * 16 + b) * 16 + c1) * 16 + d) :: p.1, p.2)
            | _, _, _, _ => none
          | _ => none
        else
          let c? : Option Char :=
            if e = '"' then some '"'
            else if e = '\\' then some '\\'
            else if e = '/' then some '/'
            else if e = 'b' then some (Char.ofNat 8)
            else if e = 'f' then some (Char.ofNat 12)
            else if e = 'n' then some '\n'
            else if e = 'r' then some '\r'
            else if e = 't' then some '\t'
            else none
          match c? with
          | some c1 => (parseJStr rest1).map fun p => (c1 :: p.1, p.2)
          | none => none
    else (parseJStr rest).map fun p => (c :: p.1, p.2)

/-- Digits to a natural number. -/
def digitsToNat (ds : List Char) : Nat :=
  ds.foldl (fun n c => n * 10 + (c.toNat - 48)) 0

/-- Parse a JSON integer numeral. -/
def parseJNum (cs : List Char) : Option (Int × List Char) :=
  let p : Bool × List Char :=
    match cs with
    | '-' :: r => (true, r)
    | _ => (false, cs)
  let ds := p.2.takeWhile Char.isDigit
  let rest := p.2.dropWhile Char.isDigit
  if ds = [] then none
  else
    match rest with
    | '.' :: _ => none
    | 'e' :: _ => none
    | 'E' :: _ => none
    | _ => some ((if p.1 then -(digitsToNat ds : Int) else (digitsToNat ds : Int)), rest)

mutual

/-- Parse one JSON value (fuel-bounded recursive descent). -/
def parseJVal : Nat → List Char → Option (Json × List Char)
  | 0, _ => none
  | Nat.succ fuel, cs =>
    match skipWs cs with
    | '"' :: rest => (parseJStr rest).map fun p => (Json.str p.1, p.2)
    | '[' :: rest =>
      (match skipWs rest with
       | ']' :: r2 => some (Json.arr [], r2)
       | cs2 => (parseJElems fuel cs2).map fun p => (Json.arr p.1, p.2))
    | 't' :: 'r' :: 'u' :: 'e' :: rest => some (Json.bool true, rest)
    | 'f' :: 'a' :: 'l' :: 's' :: 'e' :: rest => some (Json.bool false, rest)
    | 'n' :: 'u' :: 'l' :: 'l' :: rest => some (Json.null, rest)
    | c :: rest =>
      if c = Char.ofNat 123 then
        (match skipWs rest with
         | c2 :: r2 =>
           if c2 = Char.ofNat 125 then some (Json.obj [], r2)
           else (parseJMembers fuel (c2 :: r2)).map fun p => (Json.obj p.1, p.2)
         | [] => none)
      else (parseJNum (c :: rest)).map fun p => (Json.num p.1, p.2)
    | [] => none

/-- Parse the elements of a nonempty JSON array, up to `]`. -/
def parseJElems : Nat → List Char → Option (List Json × List Char)
  | 0, _ => none
  | Nat.succ fuel, cs =>
    match parseJVal fuel cs with
    | none => none
    | some (v, rest) =>
      match skipWs rest with
      | ',' :: r2 => (parseJElems fuel r2).map fun p => (v :: p.1, p.2)
      | ']' :: r2 => some ([v], r2)
      | _ => none

/-- Parse the members of a nonempty JSON object, up to `}`. -/
def parseJMembers : Nat → List Char → Option (List (List Char × Json) × List Char)
  | 0, _ => none
  | Nat.succ fuel, cs =>
    match skipWs cs with
    | '"' :: rest =>
      (match parseJStr rest with
       | none => none
       | some (k, r1) =>
         match skipWs r1 with
         | ':' :: r2 =>
           (match parseJVal fuel r2 with
            | none => none
            | some (v, r3) =>
              match skipWs r3 with
              | ',' :: r4 => (parseJMembers fuel r4).map fun p => ((k, v) :: p.1, p.2)
              | c :: r4 =>
                if c = Char.ofNat 125 then some ([(k, v)], r4) else none
              | [] => none)
         | _ => none)
    | _ => none

end

/-- Modelled from the spec: the host `JSON.parse`, returning `none` where
`JSON.parse` would throw a `SyntaxError`. -/
def jsonParse (cs : List Char) : Option Json :=
  match parseJVal (cs.length + 1) cs with
  | some (v, rest) => if skipWs rest = [] then some v else none
  | none => none

/-! ## Data model (spec §3) -/

/-- Message role. -/
inductive Role where
  | user : Role
  | assistant : Role
deriving DecidableEq, Repr

/-- A retrieved document chunk cited by the answer (spec §3 `Source`),
with `metadata` flattened. -/
structure SourceEntry where
  content : List Char
  source : List Char
  page : Option Int
deriving DecidableEq, Repr

/-- A chat message.  `sources` holds whatever JSON value the stream's
`[SOURCES]` frame carried (`none` when the field is absent, as in the
second variant's freshly created assistant message). -/
structure Message where
  role : Role
  content : List Char
  sources : Option Json

/-- Read one `Source` out of a JSON object `{content, metadata: {source, page?}}`. -/
def sourceOfJson : Json → Option SourceEntry
  | Json.obj fields =>
    match fields.lookup ("content".toList), fields.lookup ("metadata".toList) with
    | some (Json.str c), some (Json.obj meta) =>
      match meta.lookup ("source".toList) with
      | some (Json.str s) =>
        match meta.lookup ("page".toList) with
        | some (Json.num p) => some ⟨c, s, some p⟩
        | none => some ⟨c, s, none⟩
        | some _ => none
      | _ => none
    | _, _ => none
  | _ => none

/-- Read a JSON value as a sequence of `Source` (spec §3). -/
def sourcesOfJson : Json → Option (List SourceEntry)
  | Json.arr vs => vs.mapM sourceOfJson
  | _ => none

/-- The sources field of the last message, if any. -/
def lastSources (msgs : List Message) : Option (Option Json) :=
  (msgs.getLast?).map Message.sources

/-- The content of the last message, if any. -/
def lastContent (msgs : List Message) : Option (List Char) :=
  (msgs.getLast?).map Message.content

/-! ## Variant 1 stream loop (App.tsx lines 248-300) -/

/-- Mutable state of variant 1's read loop: `tempResponse`, the `sources`
accumulator (holding the raw value `JSON.parse` produced, `Json.arr []`
initially) and the rendered message list. -/
structure St1 where
  tempResponse : List Char
  sources : Json
  msgs : List Message

/-- The `setMessages` callback pattern of variant 1 (lines 276-284 and
290-297): rewrite the last message when it exists and is an assistant
message. -/
def updateLast1 (msgs : List Message) (f : Message → Message) : List Message :=
  match msgs.getLast? with
  | some m => if m.role = Role.assistant then msgs.dropLast ++ [f m] else msgs
  | none => msgs

/-- One iteration of variant 1's `for (const line of lines)` body
(lines 260-298).  The second component is `true` when the body executed
`break`.  Note `const data = line.slice(5)` (line 263): the payload keeps
the space of the `"data: "` marker. -/
def processLine1 (s : St1) (line : List Char) : St1 × Bool :=
  if jsTrim line = [] ∨ ¬ dataMark.isPrefixOf line then (s, false)
  else
    let data := line.drop 5
    if srcOpen.isPrefixOf data ∧ srcClose.isSuffixOf data then
      match jsonParse (dropRight (data.drop 9) 10) with
      | some j => ({ s with sources := j }, false)
      | none => (s, false)
    else if data = doneTok then
      let upd := fun m => { m with content := s.tempResponse, sources := some s.sources }
      ({ s with msgs := updateLast1 s.msgs upd }, true)
    else if ¬ containsSeg srcOpen data ∧ ¬ containsSeg errOpen data ∧ data ≠ doneTok then
      let t := s.tempResponse ++ data
      ({ s with tempResponse := t,
                msgs := updateLast1 s.msgs (fun m => { m with content := t }) },
       false)
    else (s, false)

/-- Variant 1's loop over the lines of one chunk, honouring `break`. -/
def processLines1 : St1 → List (List Char) → St1
  | s, [] => s
  | s, l :: ls =>
    match processLine1 s l with
    | (s', true) => s'
    | (s', false) => processLines1 s' ls

/-- Variant 1, one chunk: `decoder.decode(value)` (no `stream` option, so
chunks are decoded independently) then `chunk.split('\n')` (lines 257-258). -/
def processChunk1 (s : St1) (chunk : List Char) : St1 :=
  processLines1 s (splitNl chunk)

/-- Variant 1's `while (true)` read loop over all chunks (lines 252-300).
A `break` of the inner `for` does not end this loop. -/
def processStream1 (s : St1) (chunks : List (List Char)) : St1 :=
  chunks.foldl processChunk1 s

/-! ## Variant 2 stream loop (App.tsx lines 896-974) -/

/-- Mutable state of variant 2's read loop.  `threw` records that the
unguarded `JSON.parse` (line 938) raised, which aborts the loop and lands
in the outer catch. -/
structure St2 where
  tempResponse : List Char
  sources : Json
  msgs : List Message
  error : Option (List Char)
  threw : Bool

/-- Variant 2's `[DONE]` update (lines 945-956): overwrite the last
message (no role check) when the list is nonempty. -/
def setLast2 (msgs : List Message) (m : Message) : List Message :=
  match msgs.getLast? with
  | some _ => msgs.dropLast ++ [m]
  | none => msgs

/-- The error message text `'聊天請求失敗: '` prepended at line 941. -/
def chatFailMark : List Char := "聊天請求失敗: ".toList

/-- The generic outer-catch error text (line 994). -/
def chatFailGeneric : List Char := "聊天請求失敗，請稍後再試".toList

/-- One iteration of variant 2's `for (const line of lines)` body
(lines 931-973); second component `true` when the iteration ended the
chunk's processing (a `break`, or the exception from `JSON.parse`). -/
def processLine2 (s : St2) (line : List Char) : St2 × Bool :=
  if jsTrim line = [] ∨ ¬ dataMark.isPrefixOf line then (s, false)
  else
    let data := line.drop 6
    if srcOpen.isPrefixOf data ∧ srcClose.isSuffixOf data then
      match jsonParse (dropRight (data.drop 9) 10) with
      | some j => ({ s with sources := j }, false)
      | none => ({ s with threw := true }, true)
    else if errOpen.isPrefixOf data then
      let errorMsg := replaceFirst errClose [] (replaceFirst errOpen [] data)
      ({ s with error := some (chatFailMark ++ errorMsg) }, true)
    else if data = doneTok then
      ({ s with msgs := setLast2 s.msgs ⟨Role.assistant, s.tempResponse, some s.sources⟩ },
       true)
    else
      let t := s.tempResponse ++ data
      ({ s with tempResponse := t,
                msgs := match s.msgs.getLast? with
                        | some m => s.msgs.dropLast ++ [{ m with content := t }]
                        | none => s.msgs },
       false)

/-- Variant 2's loop over one chunk's lines, honouring `break`/throw. -/
def processLines2 : St2 → List (List Char) → St2
  | s, [] => s
  | s, l :: ls =>
    match processLine2 s l with
    | (s', true) => s'
    | (s', false) => processLines2 s' ls

/-- Variant 2, one chunk (lines 928-929); once an exception is pending no
further line runs. -/
def processChunk2 (s : St2) (chunk : List Char) : St2 :=
  if s.threw then s else processLines2 s (splitNl chunk)

/-- Variant 2's `while (true)` read loop (lines 924-974); an inner `break`
only ends the current chunk's `for` loop, so later chunks are still
processed. -/
def processStream2 (s : St2) (chunks : List (List Char)) : St2 :=
  chunks.foldl processChunk2 s

/-! ## The two `handleSubmit` implementations

UI state is the component state the claims mention.  Backend effects
(axios/fetch) are external; their successful responses enter as the
`newId` parameter and the list of decoded body chunks, and the network
success path is assumed. -/

/-- Component state touched by `handleSubmit`. -/
structure UiState where
  messages : List Message
  currentChatId : Option (List Char)
  error : Option (List Char)
  input : List Char
  isLoading : Bool

/-- Variant 1 `handleSubmit` (lines 192-329) on the successful network
path.  Returns the resulting state and whether a chat request was issued.
Lines 192-194: `e.preventDefault(); if (!input.trim()) return`. -/
def handleSubmit1 (st : UiState) (newId : List Char) (chunks : List (List Char)) :
    UiState × Bool :=
  if jsTrim st.input = [] then (st, false)
  else
    let currentInput := jsTrim st.input
    let newMessage : Message := ⟨Role.user, currentInput, none⟩
    let chatId := match st.currentChatId with
                  | some i => some i
                  | none => some newId
    let assistantMessage : Message := ⟨Role.assistant, [], some (Json.arr [])⟩
    let updatedMessages := st.messages ++ [newMessage, assistantMessage]
    let s0 : St1 := ⟨[], Json.arr [], updatedMessages⟩
    let sF := processStream1 s0 chunks
    ({ st with messages := sF.msgs, currentChatId := chatId, error := none,
               input := [], isLoading := false },
     true)

/-- Variant 2 `handleSubmit` (lines 867-998) on the successful network
path.  Lines 867-869: `if (!input.trim() || isLoading) return`.  After the
read loop (lines 977-990) the accumulated content and sources are written
into `finalMessages` unconditionally; when `JSON.parse` threw, the outer
catch (lines 992-995) sets the generic error instead. -/
def handleSubmit2 (st : UiState) (newId : List Char) (chunks : List (List Char)) :
    UiState × Bool :=
  if jsTrim st.input = [] ∨ st.isLoading then (st, false)
  else
    let userMessage : Message := ⟨Role.user, jsTrim st.input, none⟩
    let updatedMessages := st.messages ++ [userMessage]
    let assistantMessage : Message := ⟨Role.assistant, [], none⟩
    let s0 : St2 := ⟨[], Json.arr [], updatedMessages ++ [assistantMessage], none, false⟩
    let sF := processStream2 s0 chunks
    if sF.threw then
      ({ st with messages := sF.msgs, error := some chatFailGeneric,
                 input := [], isLoading := false },
       true)
    else
      let finalMessages :=
        updatedMessages ++ [⟨Role.assistant, sF.tempResponse, some sF.sources⟩]
      let chatId := match st.currentChatId with
                    | some i => some i
                    | none => some newId
      ({ st with messages := finalMessages, currentChatId := chatId,
                 error := sF.error, input := [], isLoading := false },
       true)

/-! ## Lemmas about the string helpers -/

theorem jsTrim_eq_nil_iff (l : List Char) : jsTrim l = [] ↔ ∀ c ∈ l, isWs c = true := by
  unfold jsTrim
  rw [List.reverse_eq_nil_iff, List.dropWhile_eq_nil_iff]
  constructor
  · intro h c hc
    rw [← List.takeWhile_append_dropWhile isWs l] at hc
    rcases List.mem_append.mp hc with h1 | h2
    · exact List.mem_takeWhile_imp h1
    · exact h c (List.mem_reverse.mpr h2)
  · intro h c hc
    have hc2 : c ∈ l.dropWhile isWs := List.mem_reverse.mp hc
    have hc3 : c ∈ l := by
      rw [← List.takeWhile_append_dropWhile isWs l]
      exact List.mem_append.mpr (Or.inr hc2)
    exact h c hc3

theorem jsTrim_ne_nil_of_mark {l : List Char} (h : dataMark <+: l) :
    ¬ jsTrim l = [] := by
  intro hnil
  obtain ⟨t, ht⟩ := h
  have hd : 'd' ∈ l := by
    rw [← ht]; exact List.mem_append.mpr (Or.inl (by decide))
  have := (jsTrim_eq_nil_iff l).mp hnil 'd' hd
  simp [isWs] at this

theorem drop5_of_mark {l : List Char} (h : dataMark <+: l) :
    l.drop 5 = ' ' :: l.drop 6 := by
  obtain ⟨t, ht⟩ := h
  subst ht
  rfl

theorem srcOpen_not_pre_space (xs : List Char) : ¬ (srcOpen <+: (' ' :: xs)) := by
  intro h
  obtain ⟨t, ht⟩ := h
  have : srcOpen ++ t = '[' :: ("SOURCES]".toList ++ t) := rfl
  rw [this] at ht
  exact absurd (List.head_eq_of_cons_eq ht) (by decide)

theorem space_ne_done (xs : List Char) : (' ' :: xs) ≠ doneTok := by
  have h : doneTok = '[' :: "DONE]".toList := rfl
  rw [h]
  intro hc
  exact absurd (List.head_eq_of_cons_eq hc) (by decide)

theorem containsSeg_of_isPrefixOf {pat xs : List Char} (h : pat.isPrefixOf xs = true) :
    containsSeg pat xs = true := by
  cases xs with
  | nil => simpa [containsSeg] using h
  | cons c cs => simp [containsSeg, h]

theorem containsSeg_cons_of {pat : List Char} (c : Char) {xs : List Char}
    (h : containsSeg pat xs = true) : containsSeg pat (c :: xs) = true := by
  simp [containsSeg, h]

/-! ## Frame classification for variant 2

`lineKind2` restates how variant 2's loop body dispatches on a line:
`skip` (blank or unmarked line, or a sources frame whose JSON parses),
`content d` (the fragment `d` is appended), `stop` (the iteration ends the
chunk's processing: `[ERROR]`, `[DONE]`, or the `JSON.parse` exception). -/

/-- How variant 2's loop body treats one line. -/
inductive LKind where
  | skip : LKind
  | content : List Char → LKind
  | stop : LKind
deriving DecidableEq, Repr

/-- Classification of one line for variant 2 (mirrors `processLine2`). -/
def lineKind2 (l : List Char) : LKind :=
  if jsTrim l = [] ∨ ¬ dataMark.isPrefixOf l then LKind.skip
  else
    let data := l.drop 6
    if srcOpen.isPrefixOf data ∧ srcClose.isSuffixOf data then
      match jsonParse (dropRight (data.drop 9) 10) with
      | some _ => LKind.skip
      | none => LKind.stop
    else if errOpen.isPrefixOf data then LKind.stop
    else if data = doneTok then LKind.stop
    else LKind.content data

/-- The content fragment a line contributes in variant 2. -/
def payload2 (l : List Char) : List Char :=
  match lineKind2 l with
  | LKind.content d => d
  | _ => []

/-- Concatenation of the content fragments of a list of lines, in order. -/
def payloadConcat (ls : List (List Char)) : List Char :=
  ls.foldr (fun l acc => payload2 l ++ acc) []

/-! ## Behavioral lemmas, variant 1 -/

/-- A marked line of variant 1 whose (space-headed) payload contains a
`[SOURCES]` or `[ERROR]` marker anywhere leaves the whole state untouched
and does not break. -/
theorem line1_marker_silent (s : St1) (l : List Char)
    (hmark : dataMark <+: l)
    (hseg : containsSeg srcOpen (l.drop 5) = true ∨ containsSeg errOpen (l.drop 5) = true) :
    processLine1 s l = (s, false) := by
  simp only [processLine1]
  split
  · rfl
  · split
    · next hsrc =>
      rw [drop5_of_mark hmark] at hsrc
      exact absurd hsrc.1 (by simpa using srcOpen_not_pre_space (l.drop 6))
    · split
      · next hdone =>
        rw [drop5_of_mark hmark] at hdone
        exact absurd hdone (space_ne_done _)
      · split
        · next hcont =>
          rcases hseg with h | h
          · exact absurd h (by simpa using hcont.1)
          · exact absurd h (by simpa using hcont.2.1)
        · rfl

/-- Variant 1 invariant: the last message exists, is the assistant
message, and still carries the initial empty sources array. -/
def inv1 (s : St1) : Prop :=
  ∃ m, s.msgs.getLast? = some m ∧ m.role = Role.assistant ∧ m.sources = some (Json.arr [])

theorem inv1_updateLast1_content {msgs : List Message} (t : List Char)
    (h : ∃ m, msgs.getLast? = some m ∧ m.role = Role.assistant ∧
      m.sources = some (Json.arr [])) :
    ∃ m, (updateLast1 msgs (fun x => { x with content := t })).getLast? = some m ∧
      m.role = Role.assistant ∧ m.sources = some (Json.arr []) := by
  obtain ⟨m, hm, hrole, hsrc⟩ := h
  refine ⟨{ m with content := t }, ?_, hrole, hsrc⟩
  simp [updateLast1, hm, hrole, List.getLast?_concat]

/-- Every single line of variant 1 preserves `inv1`: in particular, the
`[DONE]` branch that would overwrite the sources is unreachable, because
`line.slice(5)` leaves a leading space on the payload. -/
theorem line1_inv (s : St1) (l : List Char) (h : inv1 s) : inv1 (processLine1 s l).1 := by
  simp only [processLine1]
  split
  · exact h
  · next hguard =>
    have hmark : dataMark <+: l := by
      rcases not_or.mp hguard with ⟨_, h2⟩
      exact List.isPrefixOf_iff_prefix.mp (not_not.mp h2)
    split
    · split
      · exact h
      · exact h
    · split
      · next hdone =>
        rw [drop5_of_mark hmark] at hdone
        exact absurd hdone (space_ne_done _)
      · split
        · exact inv1_updateLast1_content _ h
        · exact h

theorem lines1_inv : ∀ (ls : List (List Char)) (s : St1), inv1 s →
    inv1 (processLines1 s ls) := by
  intro ls
  induction ls with
  | nil => intro s h; simpa [processLines1] using h
  | cons l ls ih =>
    intro s h
    have hl := line1_inv s l h
    rcases hp : processLine1 s l with ⟨s', b⟩
    rw [hp] at hl
    cases b with
    | true => simpa [processLines1, hp] using hl
    | false =>
      have := ih s' hl
      simpa [processLines1, hp] using this

theorem stream1_inv : ∀ (chunks : List (List Char)) (s : St1), inv1 s →
    inv1 (processStream1 s chunks) := by
  intro chunks
  induction chunks with
  | nil => intro s h; simpa [processStream1] using h
  | cons c cs ih =>
    intro s h
    have h1 : inv1 (processChunk1 s c) := lines1_inv _ _ h
    simpa [processStream1, List.foldl_cons] using ih _ h1

/-- Variant 1 appends at most `data` to the content buffer in any single
line, so the buffer is append-only. -/
theorem line1_temp_mono (s : St1) (l : List Char) :
    s.tempResponse <+: (processLine1 s l).1.tempResponse := by
  simp only [processLine1]
  split
  · exact List.prefix_refl _
  · split
    · split
      · exact List.prefix_refl _
      · exact List.prefix_refl _
    · split
      · exact List.prefix_refl _
      · split
        · exact List.prefix_append _ _
        · exact List.prefix_refl _

/-! ## Behavioral lemmas, variant 2 -/

theorem srcOpen_err_clash {d : List Char} (herr : errOpen <+: d) : ¬ (srcOpen <+: d) := by
  obtain ⟨t, ht⟩ := herr
  subst ht
  intro hs
  obtain ⟨u, hu⟩ := hs
  have h1 : srcOpen ++ u = '[' :: 'S' :: ("OURCES]".toList ++ u) := rfl
  have h2 : errOpen ++ t = '[' :: 'E' :: ("RROR]".toList ++ t) := rfl
  rw [h1, h2] at hu
  exact absurd (List.head_eq_of_cons_eq (List.tail_eq_of_cons_eq hu)) (by decide)

/-- Exhaustive description of one iteration of variant 2's loop body,
tied to the line's classification. -/
theorem line2_kind_cases (s : St2) (l : List Char) :
    (lineKind2 l = LKind.skip ∧ (processLine2 s l).2 = false ∧
      (processLine2 s l).1.tempResponse = s.tempResponse ∧
      (processLine2 s l).1.error = s.error ∧
      (processLine2 s l).1.threw = s.threw ∧
      (processLine2 s l).1.msgs = s.msgs) ∨
    (lineKind2 l = LKind.content (l.drop 6) ∧ (processLine2 s l).2 = false ∧
      (processLine2 s l).1.tempResponse = s.tempResponse ++ l.drop 6 ∧
      (processLine2 s l).1.error = s.error ∧
      (processLine2 s l).1.threw = s.threw ∧
      lastSources (processLine2 s l).1.msgs = lastSources s.msgs) ∨
    (lineKind2 l = LKind.stop ∧ (processLine2 s l).2 = true ∧
      (processLine2 s l).1.tempResponse = s.tempResponse ∧
      ((processLine2 s l).1.msgs = s.msgs ∨ l.drop 6 = doneTok)) := by
  simp only [processLine2]
  split
  · next hg =>
    left
    refine ⟨?_, rfl, rfl, rfl, rfl, rfl⟩
    simp only [lineKind2]
    rw [if_pos hg]
  · next hg =>
    split
    · next hsrc =>
      split
      · next j heq =>
        left
        refine ⟨?_, rfl, rfl, rfl, rfl, rfl⟩
        simp only [lineKind2]
        rw [if_neg hg, if_pos hsrc, heq]
      · next heq =>
        right; right
        refine ⟨?_, rfl, rfl, Or.inl rfl⟩
        simp only [lineKind2]
        rw [if_neg hg, if_pos hsrc, heq]
    · next hsrc =>
      split
      · next herr =>
        right; right
        refine ⟨?_, rfl, rfl, Or.inl rfl⟩
        simp only [lineKind2]
        rw [if_neg hg, if_neg hsrc, if_pos herr]
      · next herr =>
        split
        · next hdone =>
          right; right
          refine ⟨?_, rfl, rfl, Or.inr hdone⟩
          simp only [lineKind2]
          rw [if_neg hg, if_neg hsrc, if_neg herr, if_pos hdone]
        · next hdone =>
          right; left
          refine ⟨?_, rfl, rfl, rfl, rfl, ?_⟩
          · simp only [lineKind2]
            rw [if_neg hg, if_neg hsrc, if_neg herr, if_neg hdone]
          · rcases hm : s.msgs.getLast? with _ | m
            · simp [lastSources, hm]
            · simp [lastSources, hm, List.getLast?_concat]

theorem line2_nonstop {l : List Char} (s : St2) (h : lineKind2 l ≠ LKind.stop) :
    (processLine2 s l).2 = false ∧
    (processLine2 s l).1.tempResponse = s.tempResponse ++ payload2 l ∧
    (processLine2 s l).1.error = s.error ∧
    (processLine2 s l).1.threw = s.threw := by
  rcases line2_kind_cases s l with ⟨hk, h1, h2, h3, h4, _⟩ | ⟨hk, h1, h2, h3, h4, _⟩ |
    ⟨hk, _, _⟩
  · exact ⟨h1, by simp [payload2, hk, h2], h3, h4⟩
  · exact ⟨h1, by simp [payload2, hk, h2], h3, h4⟩
  · exact absurd hk h

theorem line2_stop {l : List Char} (s : St2) (h : lineKind2 l = LKind.stop) :
    (processLine2 s l).2 = true := by
  rcases line2_kind_cases s l with ⟨hk, _⟩ | ⟨hk, _⟩ | ⟨_, h2, _⟩
  · rw [hk] at h; exact absurd h (by simp)
  · rw [hk] at h; exact absurd h (by simp)
  · exact h2

/-- The `[ERROR]` branch of variant 2 (lines 939-942): sets the error
message and breaks out of the current chunk's line loop. -/
theorem line2_err (s : St2) {l : List Char} (hmark : dataMark <+: l)
    (herr : errOpen <+: l.drop 6) :
    processLine2 s l =
      ({ s with error := some (chatFailMark ++
          replaceFirst errClose [] (replaceFirst errOpen [] (l.drop 6))) }, true) := by
  have hg : ¬ (jsTrim l = [] ∨ ¬ dataMark.isPrefixOf l = true) :=
    not_or.mpr ⟨jsTrim_ne_nil_of_mark hmark,
      not_not.mpr (List.isPrefixOf_iff_prefix.mpr hmark)⟩
  have hsrc : ¬ (srcOpen.isPrefixOf (l.drop 6) = true ∧
      srcClose.isSuffixOf (l.drop 6) = true) := by
    intro hc
    exact absurd (List.isPrefixOf_iff_prefix.mp hc.1) (srcOpen_err_clash herr)
  simp only [processLine2]
  rw [if_neg hg, if_neg hsrc, if_pos (List.isPrefixOf_iff_prefix.mpr herr)]

/-- The `[DONE]` branch of variant 2 (lines 943-957): finalises the last
message and breaks out of the current chunk's line loop; the exception
flag is untouched, so the `while` read loop continues with later chunks. -/
theorem line2_done (s : St2) {l : List Char} (hmark : dataMark <+: l)
    (hdone : l.drop 6 = doneTok) :
    processLine2 s l =
      ({ s with msgs := setLast2 s.msgs ⟨Role.assistant, s.tempResponse, some s.sources⟩ }, true) := by
  have hg : ¬ (jsTrim l = [] ∨ ¬ dataMark.isPrefixOf l = true) :=
    not_or.mpr ⟨jsTrim_ne_nil_of_mark hmark,
      not_not.mpr (List.isPrefixOf_iff_prefix.mpr hmark)⟩
  have hsrc : ¬ (srcOpen.isPrefixOf (l.drop 6) = true ∧
      srcClose.isSuffixOf (l.drop 6) = true) := by
    rw [hdone]; decide
  have herr : ¬ errOpen.isPrefixOf (l.drop 6) = true := by
    rw [hdone]; decide
  simp only [processLine2]
  rw [if_neg hg, if_neg hsrc, if_neg herr, if_pos hdone]

/-- Once the `JSON.parse` exception is pending, no later chunk of the
stream is processed (the exception has exited the `while` read loop). -/
theorem stream2_threw_frozen : ∀ (chunks : List (List Char)) (s : St2),
    s.threw = true → processStream2 s chunks = s := by
  intro chunks
  induction chunks with
  | nil => intro s _; rfl
  | cons c cs ih =>
    intro s h
    have hc : processChunk2 s c = s := by simp [processChunk2, h]
    show processStream2 (processChunk2 s c) cs = s
    rw [hc]
    exact ih s h

/-- An `[ERROR]` line is a stopper for variant 2. -/
theorem kind2_err {l : List Char} (hmark : dataMark <+: l)
    (herr : errOpen <+: l.drop 6) : lineKind2 l = LKind.stop := by
  have hg : ¬ (jsTrim l = [] ∨ ¬ dataMark.isPrefixOf l = true) :=
    not_or.mpr ⟨jsTrim_ne_nil_of_mark hmark,
      not_not.mpr (List.isPrefixOf_iff_prefix.mpr hmark)⟩
  have hsrc : ¬ (srcOpen.isPrefixOf (l.drop 6) = true ∧
      srcClose.isSuffixOf (l.drop 6) = true) := by
    intro hc
    exact absurd (List.isPrefixOf_iff_prefix.mp hc.1) (srcOpen_err_clash herr)
  simp only [lineKind2]
  rw [if_neg hg, if_neg hsrc, if_pos (List.isPrefixOf_iff_prefix.mpr herr)]

theorem lines2_append_nonstop : ∀ (pre : List (List Char)) (s : St2),
    (∀ l ∈ pre, lineKind2 l ≠ LKind.stop) → ∀ (ls : List (List Char)),
    processLines2 s (pre ++ ls) = processLines2 (processLines2 s pre) ls := by
  intro pre
  induction pre with
  | nil => intro s _ ls; rfl
  | cons l pre ih =>
    intro s h ls
    have hb : (processLine2 s l).2 = false := (line2_nonstop s (h l (by simp))).1
    rcases hp : processLine2 s l with ⟨s', b⟩
    rw [hp] at hb
    subst hb
    show processLines2 s (l :: (pre ++ ls)) = _
    simp only [processLines2, hp]
    exact ih s' (fun x hx => h x (by simp [hx])) ls

theorem lines2_nonstop_state : ∀ (pre : List (List Char)) (s : St2),
    (∀ l ∈ pre, lineKind2 l ≠ LKind.stop) →
    (processLines2 s pre).tempResponse = s.tempResponse ++ payloadConcat pre ∧
    (processLines2 s pre).error = s.error ∧
    (processLines2 s pre).threw = s.threw := by
  intro pre
  induction pre with
  | nil => intro s _; simp [processLines2, payloadConcat]
  | cons l pre ih =>
    intro s h
    obtain ⟨hb, ht, he, hw⟩ := line2_nonstop s (h l (by simp))
    rcases hp : processLine2 s l with ⟨s', b⟩
    rw [hp] at hb ht he hw
    subst hb
    obtain ⟨iht, ihe, ihw⟩ := ih s' (fun x hx => h x (by simp [hx]))
    refine ⟨?_, ?_, ?_⟩
    · simp only [processLines2, hp, iht, payloadConcat, List.foldr_cons,
        List.append_assoc]
      rw [show s'.tempResponse = s.tempResponse ++ payload2 l from ht,
        List.append_assoc]
    · simp only [processLines2, hp, ihe]
      exact he
    · simp only [processLines2, hp, ihw]
      exact hw

theorem lines2_stop_cut (pre : List (List Char)) (s : St2) (d : List Char)
    (post : List (List Char)) (h : ∀ l ∈ pre, lineKind2 l ≠ LKind.stop)
    (hd : lineKind2 d = LKind.stop) :
    processLines2 s (pre ++ d :: post) = processLines2 s (pre ++ [d]) := by
  rw [lines2_append_nonstop pre s h (d :: post), lines2_append_nonstop pre s h [d]]
  set t := processLines2 s pre
  have hb : (processLine2 t d).2 = true := line2_stop t hd
  rcases hp : processLine2 t d with ⟨s', b⟩
  rw [hp] at hb
  subst hb
  simp [processLines2, hp]

theorem line2_temp_mono (s : St2) (l : List Char) :
    s.tempResponse <+: (processLine2 s l).1.tempResponse := by
  rcases line2_kind_cases s l with ⟨_, _, h, _⟩ | ⟨_, _, h, _⟩ | ⟨_, _, h, _⟩
  · rw [h]
  · rw [h]; exact List.prefix_append _ _
  · rw [h]

theorem lines2_temp_mono : ∀ (ls : List (List Char)) (s : St2),
    s.tempResponse <+: (processLines2 s ls).tempResponse := by
  intro ls
  induction ls with
  | nil => intro s; exact List.prefix_refl _
  | cons l ls ih =>
    intro s
    have h1 := line2_temp_mono s l
    rcases hp : processLine2 s l with ⟨s', b⟩
    rw [hp] at h1
    cases b with
    | true => simpa [processLines2, hp] using h1
    | false =>
      have h2 := ih s'
      refine List.IsPrefix.trans h1 ?_
      simpa [processLines2, hp] using h2

theorem lines1_temp_mono : ∀ (ls : List (List Char)) (s : St1),
    s.tempResponse <+: (processLines1 s ls).tempResponse := by
  intro ls
  induction ls with
  | nil => intro s; exact List.prefix_refl _
  | cons l ls ih =>
    intro s
    have h1 := line1_temp_mono s l
    rcases hp : processLine1 s l with ⟨s', b⟩
    rw [hp] at h1
    cases b with
    | true => simpa [processLines1, hp] using h1
    | false =>
      have h2 := ih s'
      refine List.IsPrefix.trans h1 ?_
      simpa [processLines1, hp] using h2

theorem stream1_temp_mono : ∀ (chunks : List (List Char)) (s : St1),
    s.tempResponse <+: (processStream1 s chunks).tempResponse := by
  intro chunks
  induction chunks with
  | nil => intro s; exact List.prefix_refl _
  | cons c cs ih =>
    intro s
    refine List.IsPrefix.trans (lines1_temp_mono (splitNl c) s) ?_
    simpa [processStream1, List.foldl_cons, processChunk1] using ih (processChunk1 s c)

theorem stream2_temp_mono : ∀ (chunks : List (List Char)) (s : St2),
    s.tempResponse <+: (processStream2 s chunks).tempResponse := by
  intro chunks
  induction chunks with
  | nil => intro s; exact List.prefix_refl _
  | cons c cs ih =>
    intro s
    have hstep : s.tempResponse <+: (processChunk2 s c).tempResponse := by
      by_cases ht : s.threw
      · simp [processChunk2, ht]
      · simpa [processChunk2, ht] using lines2_temp_mono (splitNl c) s
    exact List.IsPrefix.trans hstep
      (by simpa [processStream2, List.foldl_cons] using ih (processChunk2 s c))

/-! ## Concrete fixtures used by the claim theorems -/

/-- A fresh component state with input `"Hi"`. -/
def uiHi : UiState := ⟨[], none, none, "Hi".toList, false⟩

/-- A variant 1 loop state with the freshly pushed assistant message. -/
def st1Demo : St1 := ⟨[], Json.arr [], [⟨Role.assistant, [], some (Json.arr [])⟩]⟩

/-- A variant 2 loop state with the freshly pushed assistant message. -/
def st2Demo : St2 := ⟨[], Json.arr [], [⟨Role.assistant, [], none⟩], none, false⟩

/-- The spec §8 example stream, as one decoded chunk. -/
def c2stream : List Char :=
  ("data: Hello\ndata: [SOURCES][\x7b\"content\":\"a\",\"metadata\":\x7b\"source\":\"doc.pdf\"\x7d\x7d][/SOURCES]\ndata: [DONE]\n").toList

/-- A stream whose sources frame carries malformed JSON, then `[DONE]`. -/
def c3stream : List Char := "data: [SOURCES]not-json[/SOURCES]\ndata: [DONE]\n".toList

/-- A stream with one content frame, one well-formed sources frame, and a
final `[DONE]` frame. -/
def c4stream : List Char :=
  ("data: Hi\ndata: [SOURCES][\x7b\"content\":\"a\",\"metadata\":\x7b\"source\":\"doc.pdf\"\x7d\x7d][/SOURCES]\ndata: [DONE]\n").toList

/-- A stream with a well-formed sources frame and no `[DONE]` frame. -/
def c7stream : List Char :=
  ("data: [SOURCES][\x7b\"content\":\"a\",\"metadata\":\x7b\"source\":\"doc.pdf\"\x7d\x7d][/SOURCES]\n").toList

/-! ## Claim theorems -/

/-- C1: the claim asserts chunk-boundary independence — that the assembler
yields the same final content for every chunking of the same byte stream,
thanks to stateful decoding and retention of a trailing partial line.  The
code retains no partial line: each chunk is split on newlines by itself, so
the one-line stream `"data: Hello\n"` assembles to `"Hello"` when the chunk
arrives whole (variant 2) but only to `"Hel"` when it arrives as
`"data: Hel"` then `"lo\n"`; variant 1 differs likewise.  This confirms the
defect the spec itself notes in §4.1 step 2. -/
theorem c1_chunk_split_changes_content :
    (processStream2 ⟨[], Json.arr [], [], none, false⟩
        ["data: Hel".toList, "lo\n".toList]).tempResponse ≠
      (processStream2 ⟨[], Json.arr [], [], none, false⟩
        ["data: Hello\n".toList]).tempResponse ∧
    (processStream2 ⟨[], Json.arr [], [], none, false⟩
        ["data: Hello\n".toList]).tempResponse = "Hello".toList ∧
    (processStream2 ⟨[], Json.arr [], [], none, false⟩
        ["data: Hel".toList, "lo\n".toList]).tempResponse = "Hel".toList ∧
    (processStream1 ⟨[], Json.arr [], []⟩
        ["data: Hel".toList, "lo\n".toList]).tempResponse ≠
      (processStream1 ⟨[], Json.arr [], []⟩ ["data: Hello\n".toList]).tempResponse :=
  ⟨by decide, rfl, rfl, by decide⟩

/-- C2: on the spec §8 example stream, variant 2's `handleSubmit` does end
with the last assistant message carrying content `"Hello"` and the single
source entry `doc.pdf` — but variant 1 (also cited by the claim) ends with
content `" Hello [DONE]"` and an empty sources array, because
`line.slice(5)` keeps the leading space, so neither the `[SOURCES]` frame
nor `[DONE]` is recognised and `" [DONE]"` passes the content filter. -/
theorem c2_example_stream_eval :
    lastContent (handleSubmit2 uiHi "id1".toList [c2stream]).1.messages =
      some "Hello".toList ∧
    (lastSources (handleSubmit2 uiHi "id1".toList [c2stream]).1.messages).map
        (fun o => o.bind sourcesOfJson) =
      some (some [⟨"a".toList, "doc.pdf".toList, none⟩]) ∧
    lastContent (handleSubmit1 uiHi "id1".toList [c2stream]).1.messages =
      some " Hello [DONE]".toList ∧
    lastSources (handleSubmit1 uiHi "id1".toList [c2stream]).1.messages =
      some (some (Json.arr [])) :=
  ⟨rfl, rfl, rfl, rfl⟩

/-- C3: the claim says a malformed sources payload is discarded silently
and processing continues to `[DONE]` with empty sources.  Variant 1
behaves so (its parse sits in a try/catch; here the frame is not even
recognised), but in variant 2 the unguarded `JSON.parse` throws: the loop
aborts before the `[DONE]` frame, the outer catch sets the generic error,
and the assistant message is never finalised. -/
theorem c3_malformed_sources_aborts :
    jsonParse ("not-json".toList) = none ∧
    (processStream2 st2Demo [c3stream]).threw = true ∧
    (handleSubmit2 uiHi "id1".toList [c3stream]).1.error = some chatFailGeneric ∧
    lastContent (handleSubmit2 uiHi "id1".toList [c3stream]).1.messages = some [] ∧
    lastSources (handleSubmit2 uiHi "id1".toList [c3stream]).1.messages = some none ∧
    (handleSubmit1 uiHi "id1".toList [c3stream]).1.error = none ∧
    lastSources (handleSubmit1 uiHi "id1".toList [c3stream]).1.messages =
      some (some (Json.arr [])) :=
  ⟨rfl, rfl, rfl, rfl, rfl, rfl, rfl⟩

/-- C4: the claim says a stream with sources frame `X` ending in `[DONE]`
attaches exactly `X`.  Variant 2 does attach exactly the `doc.pdf` entry;
variant 1 (also cited) attaches nothing — the sources stay the initial
empty array and the unrecognised `" [DONE]"` payload is appended to the
content instead. -/
theorem c4_done_finalization_eval :
    (lastSources (handleSubmit2 uiHi "id1".toList [c4stream]).1.messages).map
        (fun o => o.bind sourcesOfJson) =
      some (some [⟨"a".toList, "doc.pdf".toList, none⟩]) ∧
    lastContent (handleSubmit2 uiHi "id1".toList [c4stream]).1.messages =
      some "Hi".toList ∧
    lastSources (handleSubmit1 uiHi "id1".toList [c4stream]).1.messages =
      some (some (Json.arr [])) ∧
    lastContent (handleSubmit1 uiHi "id1".toList [c4stream]).1.messages =
      some " Hi [DONE]".toList :=
  ⟨rfl, rfl, rfl, rfl⟩

/-- C5 counterexample: in variant 2, after a `[DONE]` frame has been
processed (it finalises the assistant message, first conjunct), a frame in
a later chunk of the same stream is still processed and mutates the
content buffer — `break` only leaves the inner `for` loop. -/
theorem c5_late_chunk_mutates_after_done :
    lastSources (processStream2 st2Demo ["data: [DONE]\n".toList]).msgs =
      some (some (Json.arr [])) ∧
    (processStream2 st2Demo ["data: [DONE]\n".toList]).tempResponse = [] ∧
    (processStream2 st2Demo
        ["data: [DONE]\n".toList, "data: latechunk\n".toList]).tempResponse =
      "latechunk".toList :=
  ⟨rfl, rfl, rfl⟩

/-- C5 (amended): content fragments are appended to the buffer in receipt
order, and a stopping frame ends processing of the remaining lines of the
current chunk only.  What happens to later chunks depends on the stopper:
a `[DONE]` or `[ERROR]` frame merely `break`s the inner `for` loop and
leaves the exception flag untouched, so any chunk arriving afterwards is
processed in full again; only the exception of a sources frame whose
`JSON.parse` throws exits the `while` read loop — once it is pending, no
later chunk is processed. -/
theorem c5_amended_receipt_order_chunk_local :
    (∀ (s : St2) (pre : List (List Char)) (d : List Char) (post : List (List Char)),
      (∀ l ∈ pre, lineKind2 l ≠ LKind.stop) → lineKind2 d = LKind.stop →
      processLines2 s (pre ++ d :: post) = processLines2 s (pre ++ [d]) ∧
      (processLines2 s pre).tempResponse = s.tempResponse ++ payloadConcat pre) ∧
    (∀ (s : St2) (l : List Char), dataMark <+: l →
      (l.drop 6 = doneTok ∨ errOpen <+: l.drop 6) →
      (processLine2 s l).1.threw = s.threw) ∧
    (∀ (s : St2) (c : List Char), s.threw = false →
      processChunk2 s c = processLines2 s (splitNl c)) ∧
    (∀ (s : St2) (chunks : List (List Char)), s.threw = true →
      processStream2 s chunks = s) := by
  refine ⟨?_, ?_, ?_, ?_⟩
  · intro s pre d post h hd
    exact ⟨lines2_stop_cut pre s d post h hd, (lines2_nonstop_state pre s h).1⟩
  · intro s l hmark hstopper
    rcases hstopper with hdone | herr
    · rw [line2_done s hmark hdone]
    · rw [line2_err s hmark herr]
  · intro s c h
    simp [processChunk2, h]
  · intro s chunks h
    exact stream2_threw_frozen chunks s h

/-- C5 witness: the amended statement's four parts at concrete inputs —
the chunk `["data: a", "data: [DONE]", "data: b"]`, the `[DONE]` and
`[ERROR]` lines, an un-thrown state with a fresh chunk, and a thrown
state with a pending chunk. -/
theorem c5_amended_witness :
    (processLines2 st2Demo
        (["data: a".toList] ++ "data: [DONE]".toList :: ["data: b".toList]) =
      processLines2 st2Demo (["data: a".toList] ++ ["data: [DONE]".toList]) ∧
    (processLines2 st2Demo ["data: a".toList]).tempResponse =
      st2Demo.tempResponse ++ payloadConcat ["data: a".toList]) ∧
    (processLine2 st2Demo "data: [DONE]".toList).1.threw = st2Demo.threw ∧
    (processLine2 st2Demo "data: [ERROR]boom[/ERROR]".toList).1.threw =
      st2Demo.threw ∧
    processChunk2 st2Demo "data: x\n".toList =
      processLines2 st2Demo (splitNl "data: x\n".toList) ∧
    processStream2 ⟨[], Json.arr [], [], none, true⟩ ["data: x\n".toList] =
      ⟨[], Json.arr [], [], none, true⟩ :=
  ⟨c5_amended_receipt_order_chunk_local.1 st2Demo ["data: a".toList]
      "data: [DONE]".toList ["data: b".toList] (by decide) (by decide),
    c5_amended_receipt_order_chunk_local.2.1 st2Demo "data: [DONE]".toList
      (by decide) (Or.inl (by decide)),
    c5_amended_receipt_order_chunk_local.2.1 st2Demo
      "data: [ERROR]boom[/ERROR]".toList (by decide) (Or.inr (by decide)),
    c5_amended_receipt_order_chunk_local.2.2.1 st2Demo "data: x\n".toList rfl,
    c5_amended_receipt_order_chunk_local.2.2.2 ⟨[], Json.arr [], [], none, true⟩
      ["data: x\n".toList] rfl⟩

/-- C6 counterexample: the claim says every stream containing an `[ERROR]`
frame surfaces a user-visible error.  Variant 1 (cited by the claim) drops
the frame silently: the error state stays `none` and nothing is appended. -/
theorem c6_variant1_error_frame_no_error :
    (handleSubmit1 uiHi "id1".toList ["data: [ERROR]boom[/ERROR]\n".toList]).1.error =
      none ∧
    lastContent
        (handleSubmit1 uiHi "id1".toList
          ["data: [ERROR]boom[/ERROR]\n".toList]).1.messages = some [] :=
  ⟨rfl, rfl⟩

/-- C6 (amended): in variant 2 an `[ERROR]` frame sets the user-visible
error message and stops processing of the remaining lines of the current
chunk, without appending its payload to the content buffer; in variant 1
an `[ERROR]`-marked line is dropped silently — the state is unchanged and
no error is surfaced; in neither variant does it terminate processing of
later chunks. -/
theorem c6_amended_error_frame :
    (∀ (s : St2) (pre : List (List Char)) (e : List Char) (post : List (List Char)),
      (∀ l ∈ pre, lineKind2 l ≠ LKind.stop) → dataMark <+: e → errOpen <+: e.drop 6 →
      processLines2 s (pre ++ e :: post) = processLines2 s (pre ++ [e]) ∧
      (processLines2 s (pre ++ e :: post)).error =
        some (chatFailMark ++
          replaceFirst errClose [] (replaceFirst errOpen [] (e.drop 6))) ∧
      (processLines2 s (pre ++ e :: post)).tempResponse =
        s.tempResponse ++ payloadConcat pre) ∧
    (∀ (s : St1) (e : List Char), dataMark <+: e → errOpen <+: e.drop 6 →
      processLine1 s e = (s, false)) := by
  constructor
  · intro s pre e post hpre hmark herr
    have hstop := kind2_err hmark herr
    have hcut := lines2_stop_cut pre s e post hpre hstop
    have happ := lines2_append_nonstop pre s hpre [e]
    have hsingle : processLines2 (processLines2 s pre) [e] =
        (processLine2 (processLines2 s pre) e).1 := by
      rcases hp : processLine2 (processLines2 s pre) e with ⟨s', b⟩
      cases b <;> simp [processLines2, hp]
    have herrline := line2_err (processLines2 s pre) hmark herr
    have hstate := lines2_nonstop_state pre s hpre
    refine ⟨hcut, ?_, ?_⟩
    · rw [hcut, happ, hsingle, herrline]
    · rw [hcut, happ, hsingle, herrline]
      exact hstate.1
  · intro s e hmark herr
    apply line1_marker_silent s e hmark
    right
    rw [drop5_of_mark hmark]
    exact containsSeg_cons_of _
      (containsSeg_of_isPrefixOf (List.isPrefixOf_iff_prefix.mpr herr))

/-- C6 witness: the amended statement at the concrete chunk
`["data: x", "data: [ERROR]boom[/ERROR]", "data: y"]` for variant 2 and at
the line `"data: [ERROR]b[/ERROR]"` for variant 1. -/
theorem c6_amended_witness :
    (processLines2 st2Demo
        (["data: x".toList] ++ "data: [ERROR]boom[/ERROR]".toList ::
          ["data: y".toList]) =
      processLines2 st2Demo
        (["data: x".toList] ++ ["data: [ERROR]boom[/ERROR]".toList]) ∧
    (processLines2 st2Demo
        (["data: x".toList] ++ "data: [ERROR]boom[/ERROR]".toList ::
          ["data: y".toList])).error =
      some (chatFailMark ++ replaceFirst errClose []
        (replaceFirst errOpen [] ("data: [ERROR]boom[/ERROR]".toList.drop 6))) ∧
    (processLines2 st2Demo
        (["data: x".toList] ++ "data: [ERROR]boom[/ERROR]".toList ::
          ["data: y".toList])).tempResponse =
      st2Demo.tempResponse ++ payloadConcat ["data: x".toList]) ∧
    processLine1 st1Demo "data: [ERROR]b[/ERROR]".toList = (st1Demo, false) :=
  ⟨c6_amended_error_frame.1 st2Demo ["data: x".toList]
      "data: [ERROR]boom[/ERROR]".toList ["data: y".toList]
      (by decide) (by decide) (by decide),
    c6_amended_error_frame.2 st1Demo "data: [ERROR]b[/ERROR]".toList
      (by decide) (by decide)⟩

/-- C7 counterexample: the claim says a stream with no `[DONE]` frame never
finalises sources.  In variant 2 the code after the read loop attaches the
accumulated sources to the final message unconditionally, so a stream
consisting only of a sources frame still ends with the `doc.pdf` entry
attached. -/
theorem c7_variant2_attaches_without_done :
    (lastSources (handleSubmit2 uiHi "id1".toList [c7stream]).1.messages).map
        (fun o => o.bind sourcesOfJson) =
      some (some [⟨"a".toList, "doc.pdf".toList, none⟩]) :=
  rfl

/-- C7 (amended): in variant 1, the assistant message's sources always stay
the empty array it was created with (for every stream — the `[DONE]`
finalisation is unreachable); in variant 2, the accumulated sources are
attached to the final message at end of stream whether or not a `[DONE]`
frame occurred. -/
theorem c7_amended_sources_finalization :
    (∀ (st : UiState) (newId : List Char) (chunks : List (List Char)),
      ¬ jsTrim st.input = [] →
      lastSources (handleSubmit1 st newId chunks).1.messages =
        some (some (Json.arr []))) ∧
    (∀ (st : UiState) (newId : List Char) (chunks : List (List Char)),
      ¬ jsTrim st.input = [] → st.isLoading = false →
      (processStream2 ⟨[], Json.arr [],
          (st.messages ++ [⟨Role.user, jsTrim st.input, none⟩]) ++
            [⟨Role.assistant, [], none⟩], none, false⟩ chunks).threw = false →
      (handleSubmit2 st newId chunks).1.messages =
        (st.messages ++ [⟨Role.user, jsTrim st.input, none⟩]) ++
          [⟨Role.assistant,
            (processStream2 ⟨[], Json.arr [],
              (st.messages ++ [⟨Role.user, jsTrim st.input, none⟩]) ++
                [⟨Role.assistant, [], none⟩], none, false⟩ chunks).tempResponse,
            some (processStream2 ⟨[], Json.arr [],
              (st.messages ++ [⟨Role.user, jsTrim st.input, none⟩]) ++
                [⟨Role.assistant, [], none⟩], none, false⟩ chunks).sources⟩]) := by
  constructor
  · intro st newId chunks h
    simp only [handleSubmit1]
    rw [if_neg h]
    have hinv : inv1 (processStream1 ⟨[], Json.arr [],
        st.messages ++ [⟨Role.user, jsTrim st.input, none⟩,
          ⟨Role.assistant, [], some (Json.arr [])⟩]⟩ chunks) := by
      apply stream1_inv
      refine ⟨⟨Role.assistant, [], some (Json.arr [])⟩, ?_, rfl, rfl⟩
      show (st.messages ++ [_, _]).getLast? = _
      rw [show st.messages ++ [⟨Role.user, jsTrim st.input, none⟩,
          (⟨Role.assistant, [], some (Json.arr [])⟩ : Message)] =
        (st.messages ++ [⟨Role.user, jsTrim st.input, none⟩]) ++
          [⟨Role.assistant, [], some (Json.arr [])⟩] from by simp]
      exact List.getLast?_concat _
    obtain ⟨m, hm, _, hsrc⟩ := hinv
    show lastSources (processStream1 _ chunks).msgs = _
    rw [lastSources, hm]
    simp [hsrc]
  · intro st newId chunks h1 h2 h3
    simp only [handleSubmit2]
    rw [if_neg (not_or.mpr ⟨h1, by simp [h2]⟩)]
    rw [if_neg (by rw [h3]; simp : ¬ _)]

/-- C7 witness: both amended conjuncts at the concrete state `uiHi` and the
single-chunk stream `["data: x\n"]` (no `[DONE]` frame). -/
theorem c7_amended_witness :
    lastSources (handleSubmit1 uiHi "id1".toList
        ["data: x\n".toList]).1.messages = some (some (Json.arr [])) ∧
    (handleSubmit2 uiHi "id1".toList ["data: x\n".toList]).1.messages =
      (uiHi.messages ++ [⟨Role.user, jsTrim uiHi.input, none⟩]) ++
        [⟨Role.assistant,
          (processStream2 ⟨[], Json.arr [],
            (uiHi.messages ++ [⟨Role.user, jsTrim uiHi.input, none⟩]) ++
              [⟨Role.assistant, [], none⟩], none, false⟩
            ["data: x\n".toList]).tempResponse,
          some (processStream2 ⟨[], Json.arr [],
            (uiHi.messages ++ [⟨Role.user, jsTrim uiHi.input, none⟩]) ++
              [⟨Role.assistant, [], none⟩], none, false⟩
            ["data: x\n".toList]).sources⟩] :=
  ⟨c7_amended_sources_finalization.1 uiHi "id1".toList ["data: x\n".toList]
      (by decide),
    c7_amended_sources_finalization.2 uiHi "id1".toList ["data: x\n".toList]
      (by decide) rfl (by decide)⟩

/-- C8 counterexample: the claim says sources are attached exactly once, at
stream completion, never during streaming.  In variant 2 a `[DONE]` frame
attaches them mid-stream (first conjunct: after the first chunk the message
carries `[1]`), and the end-of-stream code attaches them again — with a
different value when a later chunk carried another sources frame (second
conjunct: the final message carries `[2]`). -/
theorem c8_sources_attached_twice :
    lastSources (processChunk2 st2Demo
        "data: [SOURCES][1][/SOURCES]\ndata: [DONE]\n".toList).msgs =
      some (some (Json.arr [Json.num 1])) ∧
    lastSources (handleSubmit2 uiHi "id1".toList
        ["data: [SOURCES][1][/SOURCES]\ndata: [DONE]\n".toList,
          "data: [SOURCES][2][/SOURCES]\n".toList]).1.messages =
      some (some (Json.arr [Json.num 2])) :=
  ⟨rfl, rfl⟩

/-- C8 (amended): the content buffer is append-only across the whole stream
in both variants (every earlier value is a prefix of every later one), and
in variant 2 the last message's sources field is only ever rewritten by a
`[DONE]` frame during streaming (plus the unconditional attach after the
loop). -/
theorem c8_amended_append_only :
    (∀ (chunks : List (List Char)) (s : St1),
      s.tempResponse <+: (processStream1 s chunks).tempResponse) ∧
    (∀ (chunks : List (List Char)) (s : St2),
      s.tempResponse <+: (processStream2 s chunks).tempResponse) ∧
    (∀ (s : St2) (l : List Char), l.drop 6 ≠ doneTok →
      lastSources (processLine2 s l).1.msgs = lastSources s.msgs) := by
  refine ⟨stream1_temp_mono, stream2_temp_mono, ?_⟩
  intro s l hnd
  rcases line2_kind_cases s l with ⟨_, _, _, _, _, hm⟩ | ⟨_, _, _, _, _, hm⟩ |
    ⟨_, _, _, hm | hdone⟩
  · rw [hm]
  · exact hm
  · rw [hm]
  · exact absurd hdone hnd

/-- C8 witness: the amended statement at concrete states and the line
`"data: x"`. -/
theorem c8_amended_witness :
    st1Demo.tempResponse <+:
      (processStream1 st1Demo ["data: x\n".toList]).tempResponse ∧
    st2Demo.tempResponse <+:
      (processStream2 st2Demo ["data: x\n".toList]).tempResponse ∧
    lastSources (processLine2 st2Demo "data: x".toList).1.msgs =
      lastSources st2Demo.msgs :=
  ⟨c8_amended_append_only.1 ["data: x\n".toList] st1Demo,
    c8_amended_append_only.2.1 ["data: x\n".toList] st2Demo,
    c8_amended_append_only.2.2 st2Demo "data: x".toList (by decide)⟩

/-- C9: in variant 1, any `data: `-marked line whose payload contains the
substring `[SOURCES]` or `[ERROR]` anywhere is dropped entirely — the loop
state (content buffer and message list) is unchanged and no break occurs —
so a legitimate fragment that merely mentions a marker is never rendered. -/
theorem c9_marker_substring_dropped :
    ∀ (s : St1) (l : List Char), dataMark <+: l →
    (containsSeg srcOpen (l.drop 5) = true ∨ containsSeg errOpen (l.drop 5) = true) →
    processLine1 s l = (s, false) :=
  fun s l h1 h2 => line1_marker_silent s l h1 h2

/-- C9 witness: the line `"data: see [ERROR] here"` is dropped. -/
theorem c9_witness :
    processLine1 st1Demo "data: see [ERROR] here".toList = (st1Demo, false) :=
  c9_marker_substring_dropped st1Demo "data: see [ERROR] here".toList
    (by decide) (Or.inr (by decide))

/-- C10: submitting with an input that is empty or all whitespace performs
no action in either variant: no request is issued and the component state
(message list, current chat id, error, input, loading flag) is returned
unchanged. -/
theorem c10_blank_input_noop :
    ∀ (st : UiState) (newId : List Char) (chunks1 chunks2 : List (List Char)),
    (∀ c ∈ st.input, isWs c = true) →
    handleSubmit1 st newId chunks1 = (st, false) ∧
    handleSubmit2 st newId chunks2 = (st, false) := by
  intro st newId c1 c2 h
  have hnil : jsTrim st.input = [] := (jsTrim_eq_nil_iff st.input).mpr h
  constructor
  · simp [handleSubmit1, hnil]
  · simp [handleSubmit2, hnil]

/-- C10 witness: a whitespace-only input `"  "` is a no-op. -/
theorem c10_witness :
    handleSubmit1 ⟨[], none, none, "  ".toList, false⟩ "id1".toList [] =
      (⟨[], none, none, "  ".toList, false⟩, false) ∧
    handleSubmit2 ⟨[], none, none, "  ".toList, false⟩ "id1".toList [] =
      (⟨[], none, none, "  ".toList, false⟩, false) :=
  c10_blank_input_noop ⟨[], none, none, "  ".toList, false⟩ "id1".toList [] []
    (by decide)

end KeMing
